import Mathlib

/-!
# Verification of the Team-Spiral-Racing data-service core

Shallow embedding of the repository's core components and proofs of the
specification claims about them:

* `src/lib/util.py` — metadata parser (`extract_metadata`), lap-time
  normalizer (`parse_lap_time_to_seconds`), blog renderer
  (`format_markdown_to_blowfish`);
* `src/api/server.py` — lap-time ingestion (`process_ta`) and the full
  blog sync (`blog_cron_sync`);
* `src/lib/git_utils.py` — content publisher (`file_changed`,
  `commit_files`, `_update_ref`).

Modelling conventions:

* Python strings are `String` / `List Char`; Python `bytes` are `List Nat`.
* Python floats are modelled as exact rationals (`ℚ`); the lap-time
  arithmetic only adds and scales decimal literals, so no rounding
  behaviour is observable at the granularity of the claims.
* Fallible Python code (exceptions) is modelled with `Option` / explicit
  result pairs.
* The SHA-256 digest used for change detection is modelled as an
  injective fingerprint (collision-freeness assumed), i.e. the digest of
  a byte string is the byte string itself.
-/

/-! ## Python string primitives -/

/-- Python whitespace as used by `str.strip` and the regex class `\s`. -/
def pyIsSpace (c : Char) : Bool :=
  c = ' ' ∨ c = '\t' ∨ c = '\n' ∨ c = '\r' ∨ c = '\x0b' ∨ c = '\x0c'

/-- Python `str.strip()`: drop whitespace from both ends. -/
def pyStrip (l : List Char) : List Char :=
  ((l.dropWhile pyIsSpace).reverse.dropWhile pyIsSpace).reverse

/-- Python `str.split(sep)` for a one-character separator: split at every
occurrence, keeping empty pieces (`"".split(':') == ['']`). -/
def splitOnChar (c : Char) : List Char → List (List Char)
  | [] => [[]]
  | x :: xs =>
    if x = c then
      [] :: splitOnChar c xs
    else
      match splitOnChar c xs with
      | [] => [[x]]
      | h :: t => (x :: h) :: t

/-- Value of a digit string (helper for `int` / `float` parsing). -/
def digitsVal (l : List Char) : Nat :=
  l.foldl (fun a c => a * 10 + (c.toNat - 48)) 0

/-- Parse a non-empty all-digit string, as the digit runs accepted by
Python numeric constructors. -/
def parseDigits (l : List Char) : Option Nat :=
  if l ≠ [] ∧ l.all Char.isDigit then some (digitsVal l) else none

/-- Python `int(s)`: optional surrounding whitespace, optional sign,
non-empty digit run; anything else raises `ValueError` (`none`). -/
def pyInt (l : List Char) : Option Int :=
  match pyStrip l with
  | '+' :: rest => (parseDigits rest).map Int.ofNat
  | '-' :: rest => (parseDigits rest).map fun n => -(n : Int)
  | t => (parseDigits t).map Int.ofNat

/-- Unsigned part of Python `float(s)`: `d+`, `d+.d*` or `.d+`
(decimal notation; the exponent and inf/nan forms are never produced by
the lap-time data and are not modelled). -/
def pyFloatUnsigned (l : List Char) : Option ℚ :=
  match splitOnChar '.' l with
  | [w] => (parseDigits w).map fun n => (n : ℚ)
  | [w, f] =>
    if (w ≠ [] ∨ f ≠ []) ∧ w.all Char.isDigit ∧ f.all Char.isDigit then
      some ((digitsVal w : ℚ) + (digitsVal f : ℚ) / (10 ^ f.length))
    else none
  | _ => none

/-- Python `float(s)` on decimal notation, as an exact rational. -/
def pyFloat (l : List Char) : Option ℚ :=
  match pyStrip l with
  | '+' :: rest => pyFloatUnsigned rest
  | '-' :: rest => (pyFloatUnsigned rest).map Neg.neg
  | t => pyFloatUnsigned t

/-! ## `parse_lap_time_to_seconds` (src/lib/util.py, lines 38-56)

```python
if ':' in lap_time:
    minutes, seconds = lap_time.split(':')
    return int(minutes) * 60 + float(seconds)
return float(lap_time)
```

A string containing `':'` splits into at least two pieces; with more than
two pieces the tuple unpacking raises `ValueError`.  `none` stands for
the raised parse error. -/

def parse_lap_time_to_seconds (lap_time : String) : Option ℚ :=
  match splitOnChar ':' lap_time.data with
  | [s] => pyFloat s
  | [m, s] => (pyInt m).bind fun mv => (pyFloat s).map fun sv => mv * 60 + sv
  | _ => none

/-! ## `extract_metadata` (src/lib/util.py, lines 5-35)

```python
matches = re.findall(r'===\s*(.*?)\s*===', description, re.DOTALL)
if not matches: return {}
block = matches[0]
metadata = {}
for line in block.strip().splitlines():
    if ':' in line:
        key, value = line.split(':', 1)
        metadata[key.strip()] = value.strip()
return metadata
```

The first regex match captures the text between the first `===` marker
and the earliest following `===` marker, trimmed of surrounding
whitespace (the greedy `\s*` on the left and the lazy group on the right
trim exactly the whitespace that `strip` would).  The Python dict is an
association list with insertion-order update-in-place semantics. -/

/-- Suffix of the text after the first occurrence of `===`. -/
def afterFirstMarker : List Char → Option (List Char)
  | c1 :: c2 :: c3 :: rest =>
    if c1 = '=' ∧ c2 = '=' ∧ c3 = '=' then some rest
    else afterFirstMarker (c2 :: c3 :: rest)
  | _ => none

/-- Prefix of the text before the first occurrence of `===`
(`none` when there is no occurrence). -/
def upToMarker : List Char → Option (List Char)
  | c1 :: c2 :: c3 :: rest =>
    if c1 = '=' ∧ c2 = '=' ∧ c3 = '=' then some []
    else (upToMarker (c2 :: c3 :: rest)).map fun l => c1 :: l
  | _ => none

/-- Python `str.splitlines()` restricted to the `\n`, `\r`, `\r\n`
line breaks (the exotic Unicode breaks never occur in the data):
no trailing empty piece, and `"".splitlines() == []`. -/
def pySplitlinesAux : List Char → List Char → List (List Char)
  | cur, [] => [cur.reverse]
  | cur, '\r' :: '\n' :: rest =>
    cur.reverse :: (if rest.isEmpty then [] else pySplitlinesAux [] rest)
  | cur, c :: rest =>
    if c = '\n' ∨ c = '\r' then
      cur.reverse :: (if rest.isEmpty then [] else pySplitlinesAux [] rest)
    else
      pySplitlinesAux (c :: cur) rest

def pySplitlines (l : List Char) : List (List Char) :=
  if l.isEmpty then [] else pySplitlinesAux [] l

/-- Python `line.split(':', 1)` when the line contains a colon:
the pieces before and after the first `':'`. -/
def splitColon1 : List Char → Option (List Char × List Char)
  | [] => none
  | c :: rest =>
    if c = ':' then some ([], rest)
    else (splitColon1 rest).map fun p => (c :: p.1, p.2)

/-- Python dict assignment `m[k] = v`: replace the value at the first
(and, for dicts, only) occurrence of `k`, else append. -/
def dictSet : List (String × String) → String → String → List (String × String)
  | [], k, v => [(k, v)]
  | (k1, v1) :: rest, k, v =>
    if k1 = k then (k1, v) :: rest else (k1, v1) :: dictSet rest k v

/-- Python dict lookup `m[k]` / `m.get(k)`: the value at the first (and,
for dicts, only) occurrence of `k`. -/
def dictGet : List (String × String) → String → Option String
  | [], _ => none
  | (k1, v1) :: rest, k => if k1 = k then some v1 else dictGet rest k

/-- The raw text captured by the first `===\s*(.*?)\s*===` match,
before trimming (`none` when the marker does not occur twice). -/
def firstBlockRaw (l : List Char) : Option (List Char) :=
  (afterFirstMarker l).bind upToMarker

/-- The lines of the first delimited block after `block.strip()`. -/
def blockLines (description : String) : List (List Char) :=
  match firstBlockRaw description.data with
  | none => []
  | some raw => pySplitlines (pyStrip raw)

/-- One iteration of the metadata loop body. -/
def metaLine (m : List (String × String)) (line : List Char) : List (String × String) :=
  match splitColon1 line with
  | none => m
  | some (k, v) => dictSet m ⟨pyStrip k⟩ ⟨pyStrip v⟩

def extract_metadata (description : String) : List (String × String) :=
  match firstBlockRaw description.data with
  | none => []
  | some raw => (pySplitlines (pyStrip raw)).foldl metaLine []

example : extract_metadata "x === track: a\ntime: 1:2.3 === y" =
    [("track", "a"), ("time", "1:2.3")] := by decide

example : extract_metadata "no block here" = [] := by decide

example : parse_lap_time_to_seconds "1:12.123" = some (72123 / 1000 : ℚ) := by
  show parse_lap_time_to_seconds ⟨['1', ':', '1', '2', '.', '1', '2', '3']⟩ = _
  simp [parse_lap_time_to_seconds, splitOnChar, pyInt, pyFloat, pyFloatUnsigned,
    parseDigits, digitsVal, pyStrip, pyIsSpace]
  norm_num

example : parse_lap_time_to_seconds "abc" = none := by
  show parse_lap_time_to_seconds ⟨['a', 'b', 'c']⟩ = _
  simp [parse_lap_time_to_seconds, splitOnChar, pyInt, pyFloat, pyFloatUnsigned,
    parseDigits, digitsVal, pyStrip, pyIsSpace]

/-! ## Splitting lemmas -/

theorem splitOnChar_not_mem {c : Char} {l : List Char} (h : c ∉ l) :
    splitOnChar c l = [l] := by
  induction l with
  | nil => rfl
  | cons x xs ih =>
    have hx : ¬ x = c := fun he => h (by simp [he])
    have hxs : c ∉ xs := fun hm => h (List.mem_cons_of_mem _ hm)
    simp only [splitOnChar, if_neg hx, ih hxs]

theorem splitOnChar_append {c : Char} {xs : List Char} (ys : List Char) (h : c ∉ xs) :
    splitOnChar c (xs ++ c :: ys) = xs :: splitOnChar c ys := by
  induction xs with
  | nil => simp [splitOnChar]
  | cons x t ih =>
    have hx : ¬ x = c := fun he => h (by simp [he])
    have ht : c ∉ t := fun hm => h (List.mem_cons_of_mem _ hm)
    show splitOnChar c (x :: (t ++ c :: ys)) = (x :: t) :: splitOnChar c ys
    have hstep : splitOnChar c (x :: (t ++ c :: ys)) =
        match splitOnChar c (t ++ c :: ys) with
        | [] => [[x]]
        | h2 :: t2 => (x :: h2) :: t2 := by
      simp only [splitOnChar, if_neg hx]
    rw [hstep, ih ht]

/-- C2: `parse_lap_time_to_seconds` maps `"M:SS.fff"` to `minutes*60 + seconds`
and a bare `"SS.fff"` to its float value; `parse_lap_time_to_seconds "1:12.123"`
equals `72.123` and `parse_lap_time_to_seconds "45.5"` equals `45.5`; an input
whose numeric components are not parseable (e.g. `"abc"`) yields the parse
error `none`, never a default value. -/
theorem parse_lap_time_spec_c2 :
    parse_lap_time_to_seconds "1:12.123" = some (72123 / 1000 : ℚ) ∧
    parse_lap_time_to_seconds "45.5" = some (455 / 10 : ℚ) ∧
    parse_lap_time_to_seconds "abc" = none ∧
    (∀ m s : List Char, ':' ∉ m → ':' ∉ s →
      parse_lap_time_to_seconds ⟨m ++ ':' :: s⟩ =
        ((pyInt m).bind fun mv => (pyFloat s).map fun sv => mv * 60 + sv : Option ℚ)) ∧
    (∀ s : String, ':' ∉ s.data → pyFloat s.data = none →
      parse_lap_time_to_seconds s = none) := by
  refine ⟨?_, ?_, ?_, ?_, ?_⟩
  · show parse_lap_time_to_seconds ⟨['1', ':', '1', '2', '.', '1', '2', '3']⟩ = _
    simp [parse_lap_time_to_seconds, splitOnChar, pyInt, pyFloat, pyFloatUnsigned,
      parseDigits, digitsVal, pyStrip, pyIsSpace]
    norm_num
  · show parse_lap_time_to_seconds ⟨['4', '5', '.', '5']⟩ = _
    simp [parse_lap_time_to_seconds, splitOnChar, pyInt, pyFloat, pyFloatUnsigned,
      parseDigits, digitsVal, pyStrip, pyIsSpace]
    norm_num
  · show parse_lap_time_to_seconds ⟨['a', 'b', 'c']⟩ = _
    simp [parse_lap_time_to_seconds, splitOnChar, pyInt, pyFloat, pyFloatUnsigned,
      parseDigits, digitsVal, pyStrip, pyIsSpace]
  · intro m s hm hs
    unfold parse_lap_time_to_seconds
    rw [show (String.mk (m ++ ':' :: s)).data = m ++ ':' :: s from rfl]
    rw [splitOnChar_append s hm, splitOnChar_not_mem hs]
  · intro s hs hf
    unfold parse_lap_time_to_seconds
    rw [splitOnChar_not_mem hs]
    exact hf

/-- Witness for C2 at concrete inputs: `"2:3.5"` parsed through the two-piece
branch, and the colon-free non-numeric `"xy"` through the error branch. -/
theorem parse_lap_time_spec_c2_witness :
    parse_lap_time_to_seconds ⟨['2'] ++ ':' :: ['3', '.', '5']⟩ =
      ((pyInt ['2']).bind fun mv => (pyFloat ['3', '.', '5']).map fun sv => mv * 60 + sv :
        Option ℚ) ∧
    parse_lap_time_to_seconds "xy" = none :=
  ⟨parse_lap_time_spec_c2.2.2.2.1 ['2'] ['3', '.', '5'] (by decide) (by decide),
   parse_lap_time_spec_c2.2.2.2.2 "xy" (by decide) (by decide)⟩

/-! ## C7: characterisation of `extract_metadata` -/

/-- The contribution of a single `key: value` line to the lookup of `k`:
`none` for lines without a colon, the trimmed value when the trimmed key
is `k`. -/
def lineEntry (k : String) (line : List Char) : Option String :=
  match splitColon1 line with
  | none => none
  | some (k1, v) => if (⟨pyStrip k1⟩ : String) = k then some ⟨pyStrip v⟩ else none

/-- The value of the last line of the block that binds `k`
(the specification's "last occurrence wins"). -/
def lastColonValue (lines : List (List Char)) (k : String) : Option String :=
  lines.reverse.findSome? (lineEntry k)

theorem dictGet_dictSet (m : List (String × String)) (k v q : String) :
    dictGet (dictSet m k v) q = if q = k then some v else dictGet m q := by
  induction m with
  | nil =>
    by_cases h : q = k
    · subst h; simp [dictGet, dictSet]
    · simp [dictGet, dictSet, h, Ne.symm h]
  | cons p rest ih =>
    obtain ⟨k1, v1⟩ := p
    by_cases h1 : k1 = k
    · subst h1
      by_cases h : q = k1
      · subst h; simp [dictGet, dictSet]
      · simp [dictGet, dictSet, h, Ne.symm h]
    · by_cases h2 : k1 = q
      · subst h2
        simp [dictGet, dictSet, h1]
      · simp [dictGet, dictSet, h1, h2, ih]

theorem dictGet_metaLine (m : List (String × String)) (line : List Char) (k : String) :
    dictGet (metaLine m line) k = (lineEntry k line).or (dictGet m k) := by
  cases hsplit : splitColon1 line with
  | none => simp [metaLine, lineEntry, hsplit]
  | some p =>
    obtain ⟨k1, v⟩ := p
    by_cases hk : (⟨pyStrip k1⟩ : String) = k
    · simp [metaLine, lineEntry, hsplit, hk, dictGet_dictSet]
    · simp [metaLine, lineEntry, hsplit, hk, dictGet_dictSet, Ne.symm hk]

theorem findSome?_one {α β : Type} (f : α → Option β) (a : α) :
    List.findSome? f [a] = f a := by
  cases h : f a <;> simp [List.findSome?_cons, h]

theorem dictGet_foldl_metaLine (lines : List (List Char)) (m : List (String × String))
    (k : String) :
    dictGet (lines.foldl metaLine m) k = (lastColonValue lines k).or (dictGet m k) := by
  induction lines generalizing m with
  | nil => simp [lastColonValue]
  | cons l ls ih =>
    simp only [List.foldl_cons, ih, lastColonValue, List.reverse_cons, List.findSome?_append,
      dictGet_metaLine, Option.or_assoc, findSome?_one]

/-- C7: `extract_metadata` returns the empty mapping when the `===` marker
does not delimit a block, and otherwise the lookup of any key `k` in the
result is the trimmed value of the last line of the first block whose
trimmed key is `k`, colon-free lines contributing nothing. -/
theorem extract_metadata_spec_c7 :
    (∀ d : String, firstBlockRaw d.data = none → extract_metadata d = []) ∧
    (∀ (d : String) (k : String),
      dictGet (extract_metadata d) k = lastColonValue (blockLines d) k) := by
  constructor
  · intro d h
    simp [extract_metadata, h]
  · intro d k
    cases hraw : firstBlockRaw d.data with
    | none => simp [extract_metadata, blockLines, hraw, lastColonValue, dictGet]
    | some raw =>
      simp only [extract_metadata, blockLines, hraw]
      rw [dictGet_foldl_metaLine]
      simp [dictGet]

/-- Witness for C7: a markerless text maps to the empty dict, and in a block
with a duplicate key the lookup agrees with the last-occurrence value. -/
theorem extract_metadata_spec_c7_witness :
    extract_metadata "no markers" = [] ∧
    dictGet (extract_metadata "=== a: 1\nplain\na: 2 ===") "a" =
      lastColonValue (blockLines "=== a: 1\nplain\na: 2 ===") "a" ∧
    dictGet (extract_metadata "=== a: 1\nplain\na: 2 ===") "a" = some "2" :=
  ⟨extract_metadata_spec_c7.1 "no markers" (by decide),
   extract_metadata_spec_c7.2 "=== a: 1\nplain\na: 2 ===" "a",
   by decide⟩

/-! ## Lap-time ingestion (`process_ta`, src/api/server.py lines 159-230)

The YouTube detail fetch is modelled by giving `process_ta` the items
(id + description) directly; the Mongo `User` and `TrackTime` collections
are lists carried in `TaDB`.  The `try/except` around the per-item body
and the user-not-found `continue` both mean "leave the store unchanged
and move to the next item", which is what `processItem` returns in its
failure branches. -/

structure User where
  id : String
  email : String
deriving DecidableEq, Repr

structure PyDate where
  year : Nat
  month : Nat
  day : Nat
deriving DecidableEq, Repr

def isLeapYear (y : Nat) : Bool :=
  (y % 4 = 0 ∧ y % 100 ≠ 0) ∨ y % 400 = 0

def daysInMonth (y m : Nat) : Nat :=
  if m = 2 then (if isLeapYear y then 29 else 28)
  else if m = 4 ∨ m = 6 ∨ m = 9 ∨ m = 11 then 30
  else 31

/-- Python `datetime.strptime(s, "%m/%d/%Y")`: `%m` and `%d` match one or
two digits, `%Y` four digits, the whole string must be consumed, and the
values must form a calendar date; failure raises `ValueError` (`none`). -/
def pyStrptimeMDY (s : String) : Option PyDate :=
  match splitOnChar '/' s.data with
  | [m, d, y] =>
    if (1 ≤ m.length ∧ m.length ≤ 2 ∧ m.all Char.isDigit) ∧
       (1 ≤ d.length ∧ d.length ≤ 2 ∧ d.all Char.isDigit) ∧
       (y.length = 4 ∧ y.all Char.isDigit) then
      let mv := digitsVal m
      let dv := digitsVal d
      let yv := digitsVal y
      if 1 ≤ mv ∧ mv ≤ 12 ∧ 1 ≤ dv ∧ dv ≤ daysInMonth yv mv then
        some ⟨yv, mv, dv⟩
      else none
    else none
  | _ => none

/-- The document written to the `TrackTime` collection (field for field
the `track_time_doc` dict of `process_ta`). -/
structure TrackTimeDoc where
  track : String
  configuration : String
  date : PyDate
  car : String
  tag : String
  time : ℚ
  proof : String
  userId : String
deriving DecidableEq, Repr

structure VideoItem where
  videoId : String
  description : String
deriving DecidableEq, Repr

structure TaDB where
  users : List User
  trackTimes : List TrackTimeDoc
deriving DecidableEq, Repr

/-- `metadata["track"].strip().lower().replace(" ", "-")`. -/
def normalizeTrack (s : String) : String :=
  ⟨((pyStrip s.data).map Char.toLower).map fun c => if c = ' ' then '-' else c⟩

/-- `metadata["driver"].strip().lower()`. -/
def normalizeEmail (s : String) : String :=
  ⟨(pyStrip s.data).map Char.toLower⟩

/-- The field extraction/validation of the `try` body of `process_ta`
(lines 195-218): a missing key (`KeyError`), a bad date or lap time
(`ValueError`), or an unresolvable driver email all abort the item. -/
def parseItemFields (users : List User) (videoId : String)
    (md : List (String × String)) : Option TrackTimeDoc := do
  let track ← dictGet md "track"
  let configuration := (⟨pyStrip ((dictGet md "configuration").getD "").data⟩ : String)
  let dateS ← dictGet md "date"
  let date ← pyStrptimeMDY dateS
  let car ← dictGet md "car"
  let tag := (⟨pyStrip ((dictGet md "tag").getD "").data⟩ : String)
  let timeS ← dictGet md "time"
  let time ← parse_lap_time_to_seconds timeS
  let driverS ← dictGet md "driver"
  let user ← users.find? fun u => u.email = normalizeEmail driverS
  some { track := normalizeTrack track
         configuration := configuration
         date := date
         car := ⟨pyStrip car.data⟩
         tag := tag
         time := time
         proof := "https://www.youtube.com/watch?v=" ++ videoId
         userId := user.id }

/-- Mongo `update_one({"proof": proof}, {"$set": doc}, upsert=True)`:
replace the first document whose `proof` matches, else insert. -/
def upsertByProof : List TrackTimeDoc → TrackTimeDoc → List TrackTimeDoc
  | [], d => [d]
  | r :: rs, d => if r.proof = d.proof then d :: rs else r :: upsertByProof rs d

/-- One iteration of the `process_ta` loop over a fetched item
(the `if not metadata: continue` guard and the `try` body). -/
def processItem (db : TaDB) (v : VideoItem) : TaDB :=
  if extract_metadata v.description = [] then db
  else
    match parseItemFields db.users v.videoId (extract_metadata v.description) with
    | none => db
    | some doc => { db with trackTimes := upsertByProof db.trackTimes doc }

def process_ta (db : TaDB) (videos : List VideoItem) : TaDB :=
  videos.foldl processItem db

def countProof : List TrackTimeDoc → String → Nat
  | [], _ => 0
  | r :: rs, p => (if r.proof = p then 1 else 0) + countProof rs p

def findByProof (l : List TrackTimeDoc) (p : String) : Option TrackTimeDoc :=
  l.find? fun r => r.proof = p

/-- An item the loop skips: no metadata block, or a field/validation/user
failure. -/
def itemRejected (users : List User) (v : VideoItem) : Prop :=
  extract_metadata v.description = [] ∨
  parseItemFields users v.videoId (extract_metadata v.description) = none

instance (users : List User) (v : VideoItem) : Decidable (itemRejected users v) := by
  unfold itemRejected; infer_instance

/-! ### Store lemmas -/

theorem upsert_find_self (l : List TrackTimeDoc) (d : TrackTimeDoc) :
    findByProof (upsertByProof l d) d.proof = some d := by
  induction l with
  | nil => simp [upsertByProof, findByProof, List.find?]
  | cons r rs ih =>
    by_cases h : r.proof = d.proof
    · simp [upsertByProof, findByProof, List.find?, h]
    · simpa [upsertByProof, findByProof, List.find?, h] using ih

theorem upsert_count_self (l : List TrackTimeDoc) (d : TrackTimeDoc)
    (h : countProof l d.proof ≤ 1) :
    countProof (upsertByProof l d) d.proof = 1 := by
  induction l with
  | nil => simp [upsertByProof, countProof]
  | cons r rs ih =>
    by_cases hr : r.proof = d.proof
    · have h0 : countProof rs d.proof = 0 := by
        simpa [countProof, hr] using h
      simp [upsertByProof, countProof, hr, h0]
    · have hle : countProof rs d.proof ≤ 1 := by
        simpa [countProof, hr] using h
      simpa [upsertByProof, countProof, hr] using ih hle

theorem upsert_count_other (l : List TrackTimeDoc) (d : TrackTimeDoc) (p : String)
    (h : p ≠ d.proof) :
    countProof (upsertByProof l d) p = countProof l p := by
  induction l with
  | nil => simp [upsertByProof, countProof, Ne.symm h]
  | cons r rs ih =>
    by_cases hr : r.proof = d.proof
    · simp [upsertByProof, countProof, hr, Ne.symm h]
    · simp [upsertByProof, countProof, hr, ih]


theorem parseItemFields_nil (users : List User) (videoId : String) :
    parseItemFields users videoId [] = none := rfl

theorem processItem_users (db : TaDB) (v : VideoItem) :
    (processItem db v).users = db.users := by
  unfold processItem
  split
  · rfl
  · split <;> rfl

theorem process_ta_users (db : TaDB) (videos : List VideoItem) :
    (process_ta db videos).users = db.users := by
  induction videos generalizing db with
  | nil => rfl
  | cons v vs ih =>
    show (process_ta (processItem db v) vs).users = db.users
    rw [ih, processItem_users]

theorem processItem_eq_upsert (db : TaDB) (v : VideoItem) (doc : TrackTimeDoc)
    (h : parseItemFields db.users v.videoId (extract_metadata v.description) = some doc) :
    processItem db v = { db with trackTimes := upsertByProof db.trackTimes doc } := by
  have hne : extract_metadata v.description ≠ [] := by
    intro h0
    rw [h0, parseItemFields_nil] at h
    exact Option.noConfusion h
  simp [processItem, hne, h]

theorem processItem_rejected (db : TaDB) (v : VideoItem)
    (h : itemRejected db.users v) :
    processItem db v = db := by
  by_cases hmd : extract_metadata v.description = []
  · simp [processItem, hmd]
  · cases h with
    | inl h0 => exact absurd h0 hmd
    | inr h0 => simp [processItem, hmd, h0]

theorem countProof_processItem (db : TaDB) (v : VideoItem) (p : String)
    (h : countProof db.trackTimes p ≤ 1) :
    countProof (processItem db v).trackTimes p ≤ 1 := by
  by_cases hmd : extract_metadata v.description = []
  · simpa [processItem, hmd] using h
  · cases hp : parseItemFields db.users v.videoId (extract_metadata v.description) with
    | none => simpa [processItem, hmd, hp] using h
    | some doc =>
      rw [processItem_eq_upsert db v doc hp]
      by_cases hpp : p = doc.proof
      · subst hpp
        rw [upsert_count_self db.trackTimes doc h]
      · rw [upsert_count_other db.trackTimes doc p hpp]
        exact h

/-- C1: per proof URL the lap-time ingestion keeps at most one stored
record; a successfully parsed item is upserted so that exactly one record
with its proof URL exists and carries the parsed values, and processing a
second item with the same proof URL (the same item again, or the same
video with changed values) leaves exactly one record carrying the latest
values. -/
theorem process_ta_upsert_spec_c1 :
    (∀ (db : TaDB) (videos : List VideoItem) (p : String),
      countProof db.trackTimes p ≤ 1 →
      countProof (process_ta db videos).trackTimes p ≤ 1) ∧
    (∀ (db : TaDB) (v1 v2 : VideoItem) (d1 d2 : TrackTimeDoc),
      parseItemFields db.users v1.videoId (extract_metadata v1.description) = some d1 →
      parseItemFields db.users v2.videoId (extract_metadata v2.description) = some d2 →
      d2.proof = d1.proof →
      countProof db.trackTimes d1.proof ≤ 1 →
      countProof (processItem db v1).trackTimes d1.proof = 1 ∧
      findByProof (processItem db v1).trackTimes d1.proof = some d1 ∧
      countProof (processItem (processItem db v1) v2).trackTimes d1.proof = 1 ∧
      findByProof (processItem (processItem db v1) v2).trackTimes d1.proof = some d2) := by
  constructor
  · intro db videos
    induction videos generalizing db with
    | nil => intro p h; exact h
    | cons v vs ih =>
      intro p h
      exact ih (processItem db v) p (countProof_processItem db v p h)
  · intro db v1 v2 d1 d2 h1 h2 hpr hcnt
    have e1 : processItem db v1 = { db with trackTimes := upsertByProof db.trackTimes d1 } :=
      processItem_eq_upsert db v1 d1 h1
    have h2b : parseItemFields (processItem db v1).users v2.videoId
        (extract_metadata v2.description) = some d2 := by
      rw [processItem_users]; exact h2
    have e2 : processItem (processItem db v1) v2 =
        { processItem db v1 with
            trackTimes := upsertByProof (processItem db v1).trackTimes d2 } :=
      processItem_eq_upsert (processItem db v1) v2 d2 h2b
    have hd1 : countProof (upsertByProof db.trackTimes d1) d1.proof = 1 :=
      upsert_count_self db.trackTimes d1 hcnt
    refine ⟨by rw [e1]; exact hd1, by rw [e1]; exact upsert_find_self db.trackTimes d1, ?_, ?_⟩
    · rw [e2, e1]
      have : countProof (upsertByProof db.trackTimes d1) d2.proof ≤ 1 := by
        rw [hpr, hd1]
      have h3 := upsert_count_self (upsertByProof db.trackTimes d1) d2 this
      rw [hpr] at h3
      simpa [e1] using h3
    · rw [e2]
      have h4 := upsert_find_self (processItem db v1).trackTimes d2
      rw [hpr] at h4
      exact h4

/-- Witness for C1: a two-user store, the same video ingested twice with a
changed lap time; the second ingestion overwrites the first record. -/
theorem process_ta_upsert_spec_c1_witness :
    countProof
      (processItem
        (processItem
          ⟨[⟨"u1", "a@b.c"⟩], []⟩
          ⟨"vid1", "=== track: T\ndate: 06/03/2025\ncar: X\ntime: 72\ndriver: a@b.c ==="⟩)
        ⟨"vid1", "=== track: T\ndate: 06/03/2025\ncar: X\ntime: 73\ndriver: a@b.c ==="⟩).trackTimes
      "https://www.youtube.com/watch?v=vid1" = 1 ∧
    findByProof
      (processItem
        (processItem
          ⟨[⟨"u1", "a@b.c"⟩], []⟩
          ⟨"vid1", "=== track: T\ndate: 06/03/2025\ncar: X\ntime: 72\ndriver: a@b.c ==="⟩)
        ⟨"vid1", "=== track: T\ndate: 06/03/2025\ncar: X\ntime: 73\ndriver: a@b.c ==="⟩).trackTimes
      "https://www.youtube.com/watch?v=vid1" =
      some ⟨"t", "", ⟨2025, 6, 3⟩, "X", "", ((digitsVal ['7', '3'] : Nat) : ℚ),
        "https://www.youtube.com/watch?v=vid1", "u1"⟩ := by
  have h := process_ta_upsert_spec_c1.2
    ⟨[⟨"u1", "a@b.c"⟩], []⟩
    ⟨"vid1", "=== track: T\ndate: 06/03/2025\ncar: X\ntime: 72\ndriver: a@b.c ==="⟩
    ⟨"vid1", "=== track: T\ndate: 06/03/2025\ncar: X\ntime: 73\ndriver: a@b.c ==="⟩
    ⟨"t", "", ⟨2025, 6, 3⟩, "X", "", ((digitsVal ['7', '2'] : Nat) : ℚ),
      "https://www.youtube.com/watch?v=vid1", "u1"⟩
    ⟨"t", "", ⟨2025, 6, 3⟩, "X", "", ((digitsVal ['7', '3'] : Nat) : ℚ),
      "https://www.youtube.com/watch?v=vid1", "u1"⟩
    rfl rfl rfl (by decide)
  exact ⟨h.2.2.1, h.2.2.2⟩

/-- C3: a rejected item (no metadata block, malformed field, or
unresolvable driver) is skipped in place: the batch result is exactly the
result of processing the remaining items, wherever in the batch the bad
item sits, so one bad item never aborts the loop or affects the other
items. -/
theorem process_ta_skip_spec_c3 :
    ∀ (db : TaDB) (pre post : List VideoItem) (bad : VideoItem),
      itemRejected db.users bad →
      processItem db bad = db ∧
      process_ta db (pre ++ bad :: post) = process_ta db (pre ++ post) := by
  intro db pre post bad hrej
  refine ⟨processItem_rejected db bad hrej, ?_⟩
  induction pre generalizing db with
  | nil =>
    show process_ta (processItem db bad) post = process_ta db post
    rw [processItem_rejected db bad hrej]
  | cons p pre2 ih =>
    show process_ta (processItem db p) (pre2 ++ bad :: post) =
      process_ta (processItem db p) (pre2 ++ post)
    have hrej2 : itemRejected (processItem db p).users bad := by
      rw [processItem_users]; exact hrej
    exact ih (processItem db p) hrej2

/-- Witness for C3: a batch of a good item, a metadata-less bad item and a
second good item; the bad one is skipped and the rest processed. -/
theorem process_ta_skip_spec_c3_witness :
    processItem ⟨[⟨"u1", "a@b.c"⟩], []⟩ ⟨"bad", "no block"⟩ = ⟨[⟨"u1", "a@b.c"⟩], []⟩ ∧
    process_ta ⟨[⟨"u1", "a@b.c"⟩], []⟩
        ([⟨"g1", "=== track: T\ndate: 06/03/2025\ncar: X\ntime: 72\ndriver: a@b.c ==="⟩] ++
          ⟨"bad", "no block"⟩ ::
          [⟨"g2", "=== track: S\ndate: 06/04/2025\ncar: Y\ntime: 73\ndriver: a@b.c ==="⟩]) =
      process_ta ⟨[⟨"u1", "a@b.c"⟩], []⟩
        ([⟨"g1", "=== track: T\ndate: 06/03/2025\ncar: X\ntime: 72\ndriver: a@b.c ==="⟩] ++
          [⟨"g2", "=== track: S\ndate: 06/04/2025\ncar: Y\ntime: 73\ndriver: a@b.c ==="⟩]) :=
  process_ta_skip_spec_c3 ⟨[⟨"u1", "a@b.c"⟩], []⟩
    [⟨"g1", "=== track: T\ndate: 06/03/2025\ncar: X\ntime: 72\ndriver: a@b.c ==="⟩]
    [⟨"g2", "=== track: S\ndate: 06/04/2025\ncar: Y\ntime: 73\ndriver: a@b.c ==="⟩]
    ⟨"bad", "no block"⟩ (Or.inl (by decide))

/-! ## Blog renderer (`format_markdown_to_blowfish`, src/lib/util.py lines 61-96)

```python
user = mongo_database["User"].find_one({"_id": blog_post['authorId']})
content_length = len(blog_post['content'])
summary_length = 100 if content_length else content_length
summary = blog_post['content'][:summary_length].replace('#', '').replace('\n', ' ')
```

followed by the f-string with `{summary.strip()}...` inside the
`summary:` line.  A missing author makes `user['email']` raise
(`none`). -/

/-- Python `str.replace(old, new)` for a one-character pattern. -/
def pyReplaceChar (old : Char) (new : List Char) (l : List Char) : List Char :=
  l.flatMap fun c => if c = old then new else [c]

/-- `summary_length = 100 if content_length else content_length`. -/
def summary_length (content : String) : Nat :=
  if content.data.length ≠ 0 then 100 else content.data.length

/-- `content[:summary_length].replace('#', '').replace('\n', ' ')`. -/
def summary_raw (content : String) : List Char :=
  pyReplaceChar '\n' [' '] (pyReplaceChar '#' [] (content.data.take (summary_length content)))

/-- The summary text as emitted: `{summary.strip()}...`. -/
def code_summary (content : String) : String :=
  (⟨pyStrip (summary_raw content)⟩ : String) ++ "..."

def pad2 (n : Nat) : String :=
  if n < 10 then "0" ++ toString n else toString n

def pad4 (n : Nat) : String :=
  if n < 10 then "000" ++ toString n
  else if n < 100 then "00" ++ toString n
  else if n < 1000 then "0" ++ toString n
  else toString n

/-- Python `datetime.strftime('%Y-%m-%d')`. -/
def strftimeYMD (d : PyDate) : String :=
  pad4 d.year ++ "-" ++ pad2 d.month ++ "-" ++ pad2 d.day

structure BlogPost where
  id : String
  title : String
  createdAt : PyDate
  authorId : String
  content : String
  imageRef : String
deriving DecidableEq, Repr

def format_markdown_to_blowfish (users : List User) (post : BlogPost) : Option String :=
  (users.find? fun u => u.id = post.authorId).map fun user =>
    ("---\ntitle: \"" ++ post.title ++ "\"\ndate: " ++ strftimeYMD post.createdAt ++
        "\ndraft: false\n") ++
      ("summary: \"" ++ code_summary post.content ++ "\"") ++
      ("\nshowAuthor: true\nauthors:\n  - \"" ++ user.email ++ "\"\n---\n\n" ++
        post.content ++ "\n")

/-- The summary as the claim words it (newlines stripped, i.e. removed,
rather than the code's replacement by a space): first 100 characters of
the body with `#` characters and newlines removed, trimmed, ellipsis
appended. -/
def claim_summary_c8 (content : String) : String :=
  (⟨pyStrip (((content.data.take 100).filter fun c => c ≠ '#').filter
      fun c => c ≠ '\n')⟩ : String) ++ "..."

theorem pyReplaceChar_nil_eq_filter (a : Char) (l : List Char) :
    pyReplaceChar a [] l = l.filter fun c => c ≠ a := by
  induction l with
  | nil => rfl
  | cons c cs ih =>
    by_cases h : c = a <;> simp [pyReplaceChar, List.filter_cons, h] at ih ⊢ <;> exact ih

theorem pyReplaceChar_single_eq_map (a b : Char) (l : List Char) :
    pyReplaceChar a [b] l = l.map fun c => if c = a then b else c := by
  induction l with
  | nil => rfl
  | cons c cs ih =>
    by_cases h : c = a <;> simp [pyReplaceChar, h] at ih ⊢ <;> exact ih

/-- C8 counterexample: for the body `"a\nb"` the renderer's summary is
`"a b..."` (the newline is replaced by a space), not the `"ab..."` that
"newlines stripped" describes. -/
theorem render_summary_c8_counterexample :
    code_summary "a\nb" = "a b..." ∧
    claim_summary_c8 "a\nb" = "ab..." ∧
    code_summary "a\nb" ≠ claim_summary_c8 "a\nb" := by
  refine ⟨?_, ?_, ?_⟩ <;> decide

/-- C8 (amended): the renderer's summary equals the first 100 characters
of the body (fewer when shorter, zero when empty) with `#` characters
removed and each newline replaced by a space, trimmed of surrounding
whitespace and suffixed with the ellipsis marker, and this summary
appears inside the emitted header block. -/
theorem render_summary_spec_c8 :
    ∀ (users : List User) (post : BlogPost) (u : User),
      (users.find? fun u2 => u2.id = post.authorId) = some u →
      (∃ pre suf, format_markdown_to_blowfish users post =
        some (pre ++ ("summary: \"" ++ code_summary post.content ++ "\"") ++ suf)) ∧
      code_summary post.content =
        (⟨pyStrip (((post.content.data.take (summary_length post.content)).filter
            fun c => c ≠ '#').map fun c => if c = '\n' then ' ' else c)⟩ : String) ++ "..." := by
  intro users post u hu
  constructor
  · refine ⟨"---\ntitle: \"" ++ post.title ++ "\"\ndate: " ++ strftimeYMD post.createdAt ++
      "\ndraft: false\n",
      "\nshowAuthor: true\nauthors:\n  - \"" ++ u.email ++ "\"\n---\n\n" ++
        post.content ++ "\n", ?_⟩
    simp [format_markdown_to_blowfish, hu]
  · unfold code_summary summary_raw
    rw [pyReplaceChar_nil_eq_filter, pyReplaceChar_single_eq_map]

/-- Witness for C8 at a concrete post with body `"a\nb"`. -/
theorem render_summary_spec_c8_witness :
    (∃ pre suf, format_markdown_to_blowfish [⟨"u1", "e@x.y"⟩]
        ⟨"p1", "t", ⟨2025, 6, 3⟩, "u1", "a\nb", "http://img"⟩ =
      some (pre ++ ("summary: \"" ++ code_summary "a\nb" ++ "\"") ++ suf)) ∧
    code_summary "a\nb" =
      (⟨pyStrip ((("a\nb".data.take (summary_length "a\nb")).filter
          fun c => c ≠ '#').map fun c => if c = '\n' then ' ' else c)⟩ : String) ++ "..." :=
  render_summary_spec_c8 [⟨"u1", "e@x.y"⟩]
    ⟨"p1", "t", ⟨2025, 6, 3⟩, "u1", "a\nb", "http://img"⟩ ⟨"u1", "e@x.y"⟩ (by decide)

/-! ## Change detection (`file_changed`, src/lib/git_utils.py lines 39-103)

`_get_file_info` returns the repository content at a path on the tracked
branch, or `None` when absent; `_get_existing_hash` hashes it;
`file_changed` compares against the hash of the candidate content.  The
repository state is a map `String → Option (List Nat)`; the SHA-256
digest is modelled as an injective fingerprint (see the header). -/

/-- `hashlib.sha256(content).hexdigest()`, modelled as an injective
fingerprint of the content. -/
def gh_hash (content : List Nat) : List Nat := content

def get_existing_hash (repo : String → Option (List Nat)) (file_path : String) :
    Option (List Nat) :=
  (repo file_path).map gh_hash

def file_changed (repo : String → Option (List Nat)) (file_path : String)
    (new_content : List Nat) : Bool :=
  get_existing_hash repo file_path ≠ some (gh_hash new_content)

/-- C6: `file_changed` is true iff the digest of the candidate content
differs from the digest of the content currently at the path (absent path
⇒ changed).  The function is pure in the repository state, so a repeat
call with identical content and unchanged remote returns the same value —
`false` whenever the stored digest matches — and it returns true once the
remote content is altered to a different digest out-of-band. -/
theorem file_changed_spec_c6 :
    ∀ (repo : String → Option (List Nat)) (p : String) (c : List Nat),
      (file_changed repo p c = true ↔ (repo p).map gh_hash ≠ some (gh_hash c)) ∧
      (repo p = none → file_changed repo p c = true) ∧
      (∀ e, repo p = some e → gh_hash e = gh_hash c → file_changed repo p c = false) ∧
      (∀ (repo2 : String → Option (List Nat)) (e2 : List Nat), repo2 p = some e2 →
        gh_hash e2 ≠ gh_hash c → file_changed repo2 p c = true) := by
  intro repo p c
  refine ⟨?_, ?_, ?_, ?_⟩
  · simp [file_changed, get_existing_hash]
  · intro h
    simp [file_changed, get_existing_hash, h]
  · intro e he hh
    simp [file_changed, get_existing_hash, he, hh]
  · intro repo2 e2 he hh
    simp [file_changed, get_existing_hash, he, hh]

/-- Witness for C6: a one-file repository; matching content is unchanged,
an absent path is changed, altered remote content is changed. -/
theorem file_changed_spec_c6_witness :
    file_changed (fun q => if q = "a.md" then some [1, 2] else none) "a.md" [1, 2] = false ∧
    file_changed (fun q => if q = "a.md" then some [1, 2] else none) "b.md" [1, 2] = true ∧
    file_changed (fun q => if q = "a.md" then some [9] else none) "a.md" [1, 2] = true :=
  ⟨(file_changed_spec_c6 (fun q => if q = "a.md" then some [1, 2] else none) "a.md"
      [1, 2]).2.2.1 [1, 2] rfl rfl,
   (file_changed_spec_c6 (fun q => if q = "a.md" then some [1, 2] else none) "b.md"
      [1, 2]).2.1 rfl,
   (file_changed_spec_c6 (fun q => if q = "a.md" then some [1, 2] else none) "a.md"
      [1, 2]).2.2.2 (fun q => if q = "a.md" then some [9] else none) [9] rfl (by decide)⟩

/-! ## Multi-file commit (`commit_files`, src/lib/git_utils.py lines 142-335)

The GitHub API surface is modelled by an explicit state: the branch head
(`refSha`), the head commit's tree, a fresh-SHA counter, the log of
mutating requests (`writes`), and a fault schedule saying which request
raises (`requests` errors / non-2xx via `raise_for_status`).  Read
requests append nothing to `writes`; each successful POST/PATCH appends
one entry.  `commit_files` wraps everything except `_update_ref` in one
`try/except` returning `False`; `_update_ref` catches its own exception
and returns `False` itself. -/

structure Faults where
  getRef : Bool
  getCommit : Bool
  createBlob : Bool
  createTree : Bool
  createCommit : Bool
  updateRef : Bool
deriving DecidableEq, Repr

structure FileEntry where
  path : String
  content : List Nat
  encoding : String
deriving DecidableEq, Repr

structure GHState where
  refSha : Nat
  headTreeSha : Nat
  fresh : Nat
  writes : List String
  faults : Faults
deriving DecidableEq, Repr

/-- `_get_latest_commit_sha` (GET, raises on fault). -/
def get_latest_commit_sha (st : GHState) : Option Nat :=
  if st.faults.getRef then none else some st.refSha

/-- The GET of the head commit inside `commit_files`, yielding its tree. -/
def get_commit_tree_sha (st : GHState) : Option Nat :=
  if st.faults.getCommit then none else some st.headTreeSha

/-- `_create_blob` (POST, raises on fault). -/
def create_blob (st : GHState) : GHState × Option Nat :=
  if st.faults.createBlob then (st, none)
  else ({ st with fresh := st.fresh + 1, writes := st.writes ++ ["POST /git/blobs"] },
    some st.fresh)

/-- The per-file loop of `_create_tree`: binary (`base64`) entries create
a blob each, text entries are inlined into the tree request. -/
def create_tree_blobs : GHState → List FileEntry → GHState × Bool
  | st, [] => (st, true)
  | st, f :: fs =>
    if f.encoding = "base64" then
      match create_blob st with
      | (st2, some _) => create_tree_blobs st2 fs
      | (st2, none) => (st2, false)
    else create_tree_blobs st fs

/-- `_create_tree` (blob loop, then POST of the tree layered on the base
tree). -/
def create_tree (st : GHState) (files : List FileEntry) (base_tree_sha : Nat) :
    GHState × Option Nat :=
  match create_tree_blobs st files with
  | (st2, false) => (st2, none)
  | (st2, true) =>
    if st2.faults.createTree then (st2, none)
    else ({ st2 with fresh := st2.fresh + 1, writes := st2.writes ++ ["POST /git/trees"] },
      some st2.fresh)

/-- `_create_commit` (POST; the message and author/committer metadata go
into the commit object and do not affect the modelled state). -/
def create_commit (st : GHState) (tree_sha parent_sha : Nat)
    (message author_name author_email : String) : GHState × Option Nat :=
  if st.faults.createCommit then (st, none)
  else ({ st with fresh := st.fresh + 1, writes := st.writes ++ ["POST /git/commits"] },
    some st.fresh)

/-- `_update_ref`: PATCH the branch ref; the `except` clause maps any
failure to `False` with the ref unmoved. -/
def update_ref (st : GHState) (commit_sha : Nat) : GHState × Bool :=
  if st.faults.updateRef then (st, false)
  else
    ({ st with refSha := commit_sha, writes := st.writes ++ ["PATCH /git/refs/heads"] },
      true)

/-- The JSON body sent by `_update_ref`: `data = {"sha": commit_sha}` —
nothing else. -/
def update_ref_payload (commit_sha : Nat) : List (String × Nat) :=
  [("sha", commit_sha)]

/-- `commit_files` (lines 295-335). -/
def commit_files (st : GHState) (files : List FileEntry)
    (commit_message author_name author_email : String) : GHState × Bool :=
  if files = [] then (st, false)
  else
    match get_latest_commit_sha st with
    | none => (st, false)
    | some parent_sha =>
      match get_commit_tree_sha st with
      | none => (st, false)
      | some base_tree_sha =>
        match create_tree st files base_tree_sha with
        | (st2, none) => (st2, false)
        | (st2, some tree_sha) =>
          match create_commit st2 tree_sha parent_sha commit_message
              author_name author_email with
          | (st3, none) => (st3, false)
          | (st3, some commit_sha) => update_ref st3 commit_sha

/-- The branch on `commit_files`'s result in `blog_cron_sync`
(src/api/server.py lines 293-301). -/
def blog_sync_report (committed : Bool) (n : Nat) : String :=
  if committed then "Committed " ++ toString n ++ " changed files."
  else "No changes detected. Nothing to commit."

/-! ### State lemmas for the commit pipeline -/

theorem create_blob_state (st : GHState) :
    (create_blob st).1.refSha = st.refSha ∧ (create_blob st).1.faults = st.faults := by
  unfold create_blob
  by_cases h : st.faults.createBlob <;> simp [h]

theorem create_tree_blobs_state (files : List FileEntry) (st : GHState) :
    (create_tree_blobs st files).1.refSha = st.refSha ∧
    (create_tree_blobs st files).1.faults = st.faults := by
  induction files generalizing st with
  | nil => exact ⟨rfl, rfl⟩
  | cons f fs ih =>
    by_cases hb : f.encoding = "base64"
    · by_cases hfault : st.faults.createBlob
      · simp [create_tree_blobs, hb, create_blob, hfault]
      · simp [create_tree_blobs, hb, create_blob, hfault, ih]
    · simp [create_tree_blobs, hb, ih]

theorem create_tree_state (st : GHState) (files : List FileEntry) (b : Nat) :
    (create_tree st files b).1.refSha = st.refSha ∧
    (create_tree st files b).1.faults = st.faults := by
  have hb := create_tree_blobs_state files st
  unfold create_tree
  cases hcb : create_tree_blobs st files with
  | mk st2 ok =>
    rw [hcb] at hb
    cases ok with
    | false => simpa using hb
    | true =>
      by_cases hf : st2.faults.createTree
      · simpa [hf] using hb
      · simpa [hf] using hb

theorem create_commit_state (st : GHState) (t p : Nat) (msg an ae : String) :
    (create_commit st t p msg an ae).1.refSha = st.refSha ∧
    (create_commit st t p msg an ae).1.faults = st.faults := by
  unfold create_commit
  by_cases h : st.faults.createCommit <;> simp [h]

/-- A successful `create_tree_blobs` pass means the blob fault, if armed,
was never reached: no file in the list is a `base64` entry. -/
theorem create_tree_blobs_true (files : List FileEntry) (st : GHState)
    (hok : (create_tree_blobs st files).2 = true)
    (hfault : st.faults.createBlob = true) :
    ∀ fe ∈ files, fe.encoding ≠ "base64" := by
  induction files generalizing st with
  | nil => intro fe hfe; cases hfe
  | cons f fs ih =>
    intro fe hfe
    by_cases hb : f.encoding = "base64"
    · rw [create_tree_blobs, if_pos hb] at hok
      rw [create_blob, if_pos hfault] at hok
      exact absurd hok (by simp)
    · rw [create_tree_blobs, if_neg hb] at hok
      cases hfe with
      | head => exact hb
      | tail _ hmem => exact ih st hok hfault fe hmem


/-- `commit_files` only returns `True` when every request it reaches
succeeds. -/
theorem commit_files_true_no_fault (st : GHState) (files : List FileEntry)
    (msg an ae : String)
    (h : (commit_files st files msg an ae).2 = true) :
    st.faults.getRef = false ∧ st.faults.getCommit = false ∧
    st.faults.createTree = false ∧ st.faults.createCommit = false ∧
    st.faults.updateRef = false ∧
    (st.faults.createBlob = true → ∀ fe ∈ files, fe.encoding ≠ "base64") := by
  by_cases hf : files = []
  · rw [commit_files, if_pos hf] at h
    exact absurd h (by simp)
  · rw [commit_files, if_neg hf] at h
    cases href : get_latest_commit_sha st with
    | none => simp [href] at h
    | some parent =>
      have hgr : st.faults.getRef = false := by
        by_cases hg : st.faults.getRef
        · rw [get_latest_commit_sha, if_pos hg] at href; cases href
        · simpa using hg
      simp only [href] at h
      cases hct : get_commit_tree_sha st with
      | none => simp [hct] at h
      | some basetree =>
        have hgc : st.faults.getCommit = false := by
          by_cases hg : st.faults.getCommit
          · rw [get_commit_tree_sha, if_pos hg] at hct; cases hct
          · simpa using hg
        simp only [hct] at h
        cases htree : create_tree st files basetree with
        | mk st2 otree =>
          have h2 := create_tree_state st files basetree
          rw [htree] at h2
          cases otree with
          | none => simp [htree] at h
          | some tree_sha =>
            simp only [htree] at h
            have htreeok : (create_tree_blobs st files).2 = true ∧
                st.faults.createTree = false := by
              unfold create_tree at htree
              cases hcb : create_tree_blobs st files with
              | mk stb okb =>
                rw [hcb] at htree
                have hbst := create_tree_blobs_state files st
                rw [hcb] at hbst
                cases okb with
                | false => simp at htree
                | true =>
                  by_cases hct2 : stb.faults.createTree
                  · simp [hct2] at htree
                  · refine ⟨rfl, ?_⟩
                    rw [← hbst.2]
                    simpa using hct2
            cases hcommit : create_commit st2 tree_sha parent msg an ae with
            | mk st3 ocommit =>
              have h3 := create_commit_state st2 tree_sha parent msg an ae
              rw [hcommit] at h3
              cases ocommit with
              | none => simp [hcommit] at h
              | some commit_sha =>
                simp only [hcommit] at h
                have hcc : st2.faults.createCommit = false := by
                  by_cases hg : st2.faults.createCommit
                  · rw [create_commit, if_pos hg] at hcommit
                    simp at hcommit
                  · simpa using hg
                have hur : st3.faults.updateRef = false := by
                  by_cases hg : st3.faults.updateRef
                  · rw [update_ref, if_pos hg] at h
                    exact absurd h (by simp)
                  · simpa using hg
                refine ⟨hgr, hgc, htreeok.2, ?_, ?_, ?_⟩
                · rw [← h2.2]; exact hcc
                · rw [← h2.2, ← h3.2]; exact hur
                · intro hblob
                  exact create_tree_blobs_true files st htreeok.1 hblob

/-- C4: `commit_files` with an empty candidate set returns `False` and
leaves the state — in particular the write log — untouched (no network
request is issued before the early return); and whenever it returns
`False`, whichever step failed, the branch reference is unmoved. -/
theorem commit_files_spec_c4 :
    ∀ (st : GHState) (files : List FileEntry) (msg an ae : String),
      (files = [] → commit_files st files msg an ae = (st, false) ∧
        (commit_files st files msg an ae).1.writes = st.writes) ∧
      ((commit_files st files msg an ae).2 = false →
        (commit_files st files msg an ae).1.refSha = st.refSha) := by
  intro st files msg an ae
  constructor
  · intro h
    constructor <;> simp [commit_files, h]
  · intro hres
    by_cases hf : files = []
    · simp [commit_files, hf]
    · rw [commit_files, if_neg hf] at hres ⊢
      cases href : get_latest_commit_sha st with
      | none => simp [href]
      | some parent =>
        simp only [href] at hres ⊢
        cases hct : get_commit_tree_sha st with
        | none => simp [hct]
        | some basetree =>
          simp only [hct] at hres ⊢
          cases htree : create_tree st files basetree with
          | mk st2 otree =>
            have h2 := create_tree_state st files basetree
            rw [htree] at h2
            cases otree with
            | none =>
              simp only [htree]
              exact h2.1
            | some tree_sha =>
              simp only [htree] at hres ⊢
              cases hcommit : create_commit st2 tree_sha parent msg an ae with
              | mk st3 ocommit =>
                have h3 := create_commit_state st2 tree_sha parent msg an ae
                rw [hcommit] at h3
                cases ocommit with
                | none =>
                  simp only [hcommit]
                  show st3.refSha = st.refSha
                  rw [h3.1]; exact h2.1
                | some commit_sha =>
                  simp only [hcommit] at hres ⊢
                  rw [update_ref] at hres ⊢
                  by_cases huf : st3.faults.updateRef
                  · rw [if_pos huf]
                    show st3.refSha = st.refSha
                    rw [h3.1]; exact h2.1
                  · rw [if_neg huf] at hres
                    exact absurd hres (by simp)

/-- Witness for C4: the empty batch on a live state, and a non-empty
batch whose ref-update request fails — the head stays at `5`. -/
theorem commit_files_spec_c4_witness :
    (commit_files ⟨5, 1, 0, [], ⟨false, false, false, false, false, false⟩⟩ [] "m" "n" "e" =
        (⟨5, 1, 0, [], ⟨false, false, false, false, false, false⟩⟩, false) ∧
      (commit_files ⟨5, 1, 0, [], ⟨false, false, false, false, false, false⟩⟩ [] "m" "n"
        "e").1.writes = ([] : List String)) ∧
    (commit_files ⟨5, 1, 0, [], ⟨false, false, false, false, false, true⟩⟩
        [⟨"p", [1], "utf-8"⟩] "m" "n" "e").1.refSha = 5 :=
  ⟨(commit_files_spec_c4 ⟨5, 1, 0, [], ⟨false, false, false, false, false, false⟩⟩ [] "m" "n"
      "e").1 rfl,
   (commit_files_spec_c4 ⟨5, 1, 0, [], ⟨false, false, false, false, false, true⟩⟩
      [⟨"p", [1], "utf-8"⟩] "m" "n" "e").2 (by decide)⟩

/-- A fault schedule that makes some step of a non-empty `commit_files`
call fail (the blob step only fires for `base64` entries). -/
def step_fails (f : Faults) (files : List FileEntry) : Prop :=
  f.getRef = true ∨ f.getCommit = true ∨
  (f.createBlob = true ∧ ∃ fe ∈ files, fe.encoding = "base64") ∨
  f.createTree = true ∨ f.createCommit = true ∨ f.updateRef = true

/-- C10: `commit_files` returns the same `False` for an empty batch and
for a failed non-empty batch, so the full-sync caller maps both to the
success message "No changes detected. Nothing to commit.". -/
theorem commit_false_ambiguous_spec_c10 :
    ∀ (st : GHState) (files : List FileEntry) (msg an ae : String),
      files ≠ [] → step_fails st.faults files →
      (commit_files st files msg an ae).2 = false ∧
      (commit_files st [] msg an ae).2 = false ∧
      blog_sync_report (commit_files st files msg an ae).2 files.length =
        "No changes detected. Nothing to commit." ∧
      blog_sync_report (commit_files st [] msg an ae).2 0 =
        "No changes detected. Nothing to commit." := by
  intro st files msg an ae hne hfail
  have hfalse : (commit_files st files msg an ae).2 = false := by
    cases hres : (commit_files st files msg an ae).2 with
    | false => rfl
    | true =>
      have hok := commit_files_true_no_fault st files msg an ae hres
      rcases hfail with h | h | ⟨hb, fe, hfe, hb64⟩ | h | h | h
      · rw [hok.1] at h; cases h
      · rw [hok.2.1] at h; cases h
      · exact absurd hb64 (hok.2.2.2.2.2 hb fe hfe)
      · rw [hok.2.2.1] at h; cases h
      · rw [hok.2.2.2.1] at h; cases h
      · rw [hok.2.2.2.2.1] at h; cases h
  have hempty : (commit_files st [] msg an ae).2 = false := by
    simp [commit_files]
  exact ⟨hfalse, hempty, by rw [hfalse]; rfl, by rw [hempty]; rfl⟩

/-- Witness for C10: a batch of one text file against a state whose
ref-update fails. -/
theorem commit_false_ambiguous_spec_c10_witness :
    (commit_files ⟨5, 1, 0, [], ⟨false, false, false, false, false, true⟩⟩
        [⟨"p", [1], "utf-8"⟩] "m" "n" "e").2 = false ∧
    (commit_files ⟨5, 1, 0, [], ⟨false, false, false, false, false, true⟩⟩ [] "m" "n"
      "e").2 = false ∧
    blog_sync_report
        (commit_files ⟨5, 1, 0, [], ⟨false, false, false, false, false, true⟩⟩
          [⟨"p", [1], "utf-8"⟩] "m" "n" "e").2
        ([⟨"p", [1], "utf-8"⟩] : List FileEntry).length =
      "No changes detected. Nothing to commit." ∧
    blog_sync_report
        (commit_files ⟨5, 1, 0, [], ⟨false, false, false, false, false, true⟩⟩ [] "m" "n"
          "e").2 0 =
      "No changes detected. Nothing to commit." :=
  commit_false_ambiguous_spec_c10
    ⟨5, 1, 0, [], ⟨false, false, false, false, false, true⟩⟩
    [⟨"p", [1], "utf-8"⟩] "m" "n" "e" (by decide)
    (Or.inr (Or.inr (Or.inr (Or.inr (Or.inr rfl)))))

/-- C9 (code bug): the ref update PATCH body carries only the new `sha` —
no expected-prior-SHA precondition, i.e. no branch-head compare-and-swap
— and a rejected update is collapsed by `_update_ref` into the bare
`False` that an empty batch also produces, not a distinct retryable
error. -/
theorem update_ref_unconditioned_c9 :
    (update_ref_payload 7).map Prod.fst = ["sha"] ∧
    update_ref ⟨5, 1, 0, [], ⟨false, false, false, false, false, true⟩⟩ 9 =
      (⟨5, 1, 0, [], ⟨false, false, false, false, false, true⟩⟩, false) ∧
    (update_ref ⟨5, 1, 0, [], ⟨false, false, false, false, false, true⟩⟩ 9).1.refSha = 5 :=
  ⟨rfl, rfl, rfl⟩

/-! ## Full blog sync (`blog_cron_sync`, src/api/server.py lines 267-301)

`blog_cron_sync` iterates every `BlogPost`, renders it, checks
`file_changed` for the markdown file and the downloaded featured image
independently, stages each changed file with `write_file`, accumulates
all changed paths in `changed_files`, and calls `commit_files` exactly
once with the accumulated list.

Modelled from the spec: the `GitUtils` publisher variant that
`server.py` imports (`write_file` staging plus a `commit_files` taking
the accumulated changed-path list) is not part of `src/lib/git_utils.py`
— only its caller is in src.  Per §3 (*CommitBatch*) and §4.4 of the
spec, staging records the `(path, content)` pairs and the single
`commit_files` call submits them as one batch; `blog_cron_sync_batches`
returns the list of submitted batches, one per `commit_files` call.
The image download (`download_image`) is modelled by the environment map
`images : url ↦ (bytes, extension)`; a missing author aborts the sync
(`None`), as the unguarded `user['email']` would. -/

structure SyncEnv where
  users : List User
  repo : String → Option (List Nat)
  images : String → (List Nat × String)

/-- `markdown.encode("utf-8")`, modelled as the (injective) character
code sequence. -/
def encodeBytes (s : String) : List Nat :=
  s.data.map Char.toNat

def post_dir (p : BlogPost) : String := "content/posts/" ++ p.id

def markdown_path (p : BlogPost) : String := post_dir p ++ "/index.md"

def image_path (env : SyncEnv) (p : BlogPost) : String :=
  post_dir p ++ "/featured" ++ (env.images p.imageRef).2

/-- One iteration of the `blog_cron_sync` loop: the changed files of one
post, in the order the loop appends them (markdown first, image second). -/
def syncPost (env : SyncEnv) (p : BlogPost) : Option (List (String × List Nat)) :=
  (format_markdown_to_blowfish env.users p).map fun md =>
    (if file_changed env.repo (markdown_path p) (encodeBytes md) then
      [(markdown_path p, encodeBytes md)]
    else []) ++
    (if file_changed env.repo (image_path env p) (env.images p.imageRef).1 then
      [(image_path env p, (env.images p.imageRef).1)]
    else [])

/-- The commit batches submitted by one `blog_cron_sync` run: the staged
changed files of every post, concatenated in post order, submitted as a
single batch by the one `commit_files` call. -/
def blog_cron_sync_batches (env : SyncEnv) (posts : List BlogPost) :
    Option (List (List (String × List Nat))) :=
  (posts.mapM (syncPost env)).map fun staged => [staged.flatten]

/-- C5: the full sync visits every post, decides change status for the
markdown and image files independently, and submits exactly one batch —
the concatenation of all changed files; in particular, with two posts of
which the first already matches the repository, the single batch holds
exactly the changed files of the second post. -/
theorem blog_cron_sync_spec_c5 :
    (∀ (env : SyncEnv) (posts : List BlogPost) (staged : List (List (String × List Nat))),
      posts.mapM (syncPost env) = some staged →
      blog_cron_sync_batches env posts = some [staged.flatten] ∧
      ∀ batches, blog_cron_sync_batches env posts = some batches → batches.length = 1) ∧
    (∀ (env : SyncEnv) (p1 p2 : BlogPost) (md1 : String)
        (files2 : List (String × List Nat)),
      format_markdown_to_blowfish env.users p1 = some md1 →
      env.repo (markdown_path p1) = some (encodeBytes md1) →
      env.repo (image_path env p1) = some (env.images p1.imageRef).1 →
      syncPost env p2 = some files2 →
      blog_cron_sync_batches env [p1, p2] = some [files2]) := by
  constructor
  · intro env posts staged h
    constructor
    · rw [blog_cron_sync_batches, h]
      rfl
    · intro batches hb
      rw [blog_cron_sync_batches, h] at hb
      have hb2 : [staged.flatten] = batches := Option.some.inj hb
      rw [← hb2]
      rfl
  · intro env p1 p2 md1 files2 h1 h2 h3 h4
    have hmd : file_changed env.repo (markdown_path p1) (encodeBytes md1) = false := by
      simp [file_changed, get_existing_hash, h2, gh_hash]
    have himg : file_changed env.repo (image_path env p1)
        (env.images p1.imageRef).1 = false := by
      simp [file_changed, get_existing_hash, h3, gh_hash]
    have hs1 : syncPost env p1 = some [] := by
      rw [syncPost, h1]
      simp [hmd, himg]
    rw [blog_cron_sync_batches, List.mapM_cons, hs1, List.mapM_cons, h4, List.mapM_nil]
    simp

/-- Concrete inputs for the C5 witness: one author, two posts; the first
post's rendered markdown and image already match the repository, the
second post is new. -/
def syncUsersW : List User := [⟨"u1", "e@x.y"⟩]

def syncPost1W : BlogPost := ⟨"a", "t", ⟨2025, 6, 3⟩, "u1", "c", "i1"⟩

def syncPost2W : BlogPost := ⟨"b", "t2", ⟨2025, 6, 4⟩, "u1", "d", "i2"⟩

def syncMd1W : String :=
  "---\ntitle: \"t\"\ndate: 2025-06-03\ndraft: false\nsummary: \"c...\"\nshowAuthor: true\nauthors:\n  - \"e@x.y\"\n---\n\nc\n"

def syncMd2W : String :=
  "---\ntitle: \"t2\"\ndate: 2025-06-04\ndraft: false\nsummary: \"d...\"\nshowAuthor: true\nauthors:\n  - \"e@x.y\"\n---\n\nd\n"

def syncEnvW : SyncEnv :=
  ⟨syncUsersW,
   fun q =>
     if q = "content/posts/a/index.md" then some (encodeBytes syncMd1W)
     else if q = "content/posts/a/featured.jpg" then some [7]
     else none,
   fun _ => ([7], ".jpg")⟩

/-- Witness for C5: the sync of the two concrete posts produces exactly
one batch holding only the second post's two files. -/
theorem blog_cron_sync_spec_c5_witness :
    blog_cron_sync_batches syncEnvW [syncPost1W, syncPost2W] =
      some [[("content/posts/b/index.md", encodeBytes syncMd2W),
             ("content/posts/b/featured.jpg", [7])]] :=
  blog_cron_sync_spec_c5.2 syncEnvW syncPost1W syncPost2W syncMd1W
    [("content/posts/b/index.md", encodeBytes syncMd2W),
     ("content/posts/b/featured.jpg", [7])]
    (by decide) (by decide) (by decide) (by decide)
